import Mathlib

/-!
Shallow embedding of the `behave` behavior-tree engine (package `behave`,
repository rbrabson/behave).

The `Status` enumeration and every node type (`Action`, `Condition`,
`Composite`, `Selector`, `Sequence`, `Parallel`, `Retry`, `Repeat`, `Invert`,
`AlwaysSuccess`, `AlwaysFailure`, `RepeatN`, `Forever`, `WhileSuccess`,
`WhileFailure`, `WithTimeout`, `Log`) are translated from the Go sources.
A node's mutable fields (the cached `status`, `Parallel.MinSuccessCount`,
`RepeatN.Count`, `WithTimeout.startTime`) become fields of the corresponding
constructor, and the mutating methods `Tick` and `Reset` become pure
functions returning the updated node together with the returned status.

Host-supplied callbacks are modelled by the value they return on every call:
`Action.Run` and the `Check` of `condition.go`'s `Condition` return a Go
`Status`, which is an `int`, so they are modelled as `Option Int`
(`none` = nil callback); the `Check` of `behaviortree.go`'s `Condition`
returns a `bool` and is modelled as `Option Bool`.  Wall-clock time, used
only by `WithTimeout`, is passed to `tick` as an explicit `now` parameter.
-/

namespace Behave

/-- The four statuses of `behaviortree.go`: `Ready = 0`, `Running = 1`,
`Success = 2`, `Failure = 3` (Go `iota` order). -/
inductive Status where
  | Ready
  | Running
  | Success
  | Failure
deriving DecidableEq, Repr

/-- The Go `Status` constant corresponding to a status value (`iota` order:
`Ready = 0`, `Running = 1`, `Success = 2`, `Failure = 3`).  Go's `Status` is
an `int`, so host callbacks are modelled as returning an `Int`. -/
def statusCode : Status → Int
  | .Ready => 0
  | .Running => 1
  | .Success => 2
  | .Failure => 3

/-- The `switch` that `Action.Tick` and `Condition.Tick` (files `action.go`
and `condition.go`) perform on the callback's returned value: the four
recognized constants map to themselves, anything else falls to the
`default` branch and becomes `Failure`. -/
def normalizeStatus (v : Int) : Status :=
  if v = 0 then .Ready
  else if v = 1 then .Running
  else if v = 2 then .Success
  else if v = 3 then .Failure
  else .Failure

mutual
/-- A behavior-tree node.  One constructor per Go node type; each carries
the node's fields, with mutable Go fields made explicit.  `Condition` is the
leaf of `condition.go` (`Check func() Status`, cached status); `ConditionB`
is the leaf of `behaviortree.go` lines 167–212 (`Check func() bool`,
stateless: it caches nothing). -/
inductive BNode where
  | Action (run : Option Int) (status : Status)
  | Condition (check : Option Int) (status : Status)
  | ConditionB (check : Option Bool)
  | Composite (conditions : BNodes) (child : OBNode) (status : Status)
  | Selector (children : BNodes) (status : Status)
  | Sequence (children : BNodes) (status : Status)
  | Parallel (children : BNodes) (minSuccessCount : Int) (status : Status)
  | Retry (child : OBNode) (status : Status)
  | Repeat (child : OBNode) (status : Status)
  | Invert (child : OBNode) (status : Status)
  | AlwaysSuccess (child : OBNode) (status : Status)
  | AlwaysFailure (child : OBNode) (status : Status)
  | RepeatN (child : OBNode) (maxCount : Int) (count : Int) (status : Status)
  | Forever (child : OBNode) (status : Status)
  | WhileSuccess (child : OBNode) (status : Status)
  | WhileFailure (child : OBNode) (status : Status)
  | WithTimeout (child : OBNode) (duration : Int) (startTime : Option Int) (status : Status)
  | Log (child : OBNode) (status : Status)

/-- A decorator's possibly-nil child (`Child Node` field, nil-checkable). -/
inductive OBNode where
  | nil
  | child (c : BNode)

/-- A slice of child nodes (`Children []Node` / `Conditions []Node`). -/
inductive BNodes where
  | nil
  | cons (head : BNode) (tail : BNodes)
end

namespace BNodes

/-- `len(children)`. -/
def length : BNodes → Nat
  | .nil => 0
  | .cons _ t => 1 + t.length

/-- The first `n` children. -/
def take : Nat → BNodes → BNodes
  | 0, _ => .nil
  | _, .nil => .nil
  | n + 1, .cons h t => .cons h (take n t)

/-- The children after the first `n`. -/
def drop : Nat → BNodes → BNodes
  | 0, l => l
  | _ + 1, .nil => .nil
  | n + 1, .cons _ t => drop n t

/-- The `n`-th child, if it exists. -/
def get? : BNodes → Nat → Option BNode
  | .nil, _ => none
  | .cons h _, 0 => some h
  | .cons _ t, n + 1 => t.get? n

/-- Apply `f` to every child. -/
def map (f : BNode → BNode) : BNodes → BNodes
  | .nil => .nil
  | .cons h t => .cons (f h) (map f t)

/-- Whether `p` holds of every child. -/
def all (p : BNode → Bool) : BNodes → Bool
  | .nil => true
  | .cons h t => p h && all p t

/-- The number of children satisfying `p`. -/
def countP (p : BNode → Bool) : BNodes → Nat
  | .nil => 0
  | .cons h t => (if p h then 1 else 0) + countP p t

/-- Concatenation of child lists. -/
def append : BNodes → BNodes → BNodes
  | .nil, l => l
  | .cons h t, l => .cons h (append t l)

end BNodes

/-- The status a node reports without being ticked: the cached `status`
field, except for `behaviortree.go`'s `Condition`, whose `Status()` method
re-evaluates `Check` on every call (nil `Check` or `Check() == false` give
`Failure`, `Check() == true` gives `Success`). -/
def statusOf : BNode → Status
  | .Action _ st => st
  | .Condition _ st => st
  | .ConditionB check =>
    match check with
    | none => .Failure
    | some b => if b then .Success else .Failure
  | .Composite _ _ st => st
  | .Selector _ st => st
  | .Sequence _ st => st
  | .Parallel _ _ st => st
  | .Retry _ st => st
  | .Repeat _ st => st
  | .Invert _ st => st
  | .AlwaysSuccess _ st => st
  | .AlwaysFailure _ st => st
  | .RepeatN _ _ _ st => st
  | .Forever _ st => st
  | .WhileSuccess _ st => st
  | .WhileFailure _ st => st
  | .WithTimeout _ _ _ st => st
  | .Log _ st => st

mutual
/-- `Reset()`: returns the node in its reset state together with the status
the method returns.  Every node type sets its cached status to `Ready` and
recursively resets its children; `RepeatN` also zeroes `Count` and
`WithTimeout` clears `startTime`.  `behaviortree.go`'s `Condition` is
stateless: its `Reset` returns `Ready` without changing anything. -/
def reset : BNode → BNode × Status
  | .Action run _ => (.Action run .Ready, .Ready)
  | .Condition check _ => (.Condition check .Ready, .Ready)
  | .ConditionB check => (.ConditionB check, .Ready)
  | .Composite conds child _ =>
    (.Composite (resetList conds) (resetO child) .Ready, .Ready)
  | .Selector cs _ => (.Selector (resetList cs) .Ready, .Ready)
  | .Sequence cs _ => (.Sequence (resetList cs) .Ready, .Ready)
  | .Parallel cs m _ => (.Parallel (resetList cs) m .Ready, .Ready)
  | .Retry child _ => (.Retry (resetO child) .Ready, .Ready)
  | .Repeat child _ => (.Repeat (resetO child) .Ready, .Ready)
  | .Invert child _ => (.Invert (resetO child) .Ready, .Ready)
  | .AlwaysSuccess child _ => (.AlwaysSuccess (resetO child) .Ready, .Ready)
  | .AlwaysFailure child _ => (.AlwaysFailure (resetO child) .Ready, .Ready)
  | .RepeatN child maxC _ _ => (.RepeatN (resetO child) maxC 0 .Ready, .Ready)
  | .Forever child _ => (.Forever (resetO child) .Ready, .Ready)
  | .WhileSuccess child _ => (.WhileSuccess (resetO child) .Ready, .Ready)
  | .WhileFailure child _ => (.WhileFailure (resetO child) .Ready, .Ready)
  | .WithTimeout child d _ _ => (.WithTimeout (resetO child) d none .Ready, .Ready)
  | .Log child _ => (.Log (resetO child) .Ready, .Ready)

termination_by structural n => n

/-- Reset an optional child (`if child != nil { child.Reset() }`). -/
def resetO : OBNode → OBNode
  | .nil => .nil
  | .child c => .child (reset c).1
termination_by structural n => n

/-- Reset every node of a child list. -/
def resetList : BNodes → BNodes
  | .nil => .nil
  | .cons h t => .cons (reset h).1 (resetList t)
termination_by structural n => n
end

mutual
/-- `Tick()`: returns the node in its post-tick state together with the
status the method returns.  `now` is the wall-clock instant of the call
(used only by `WithTimeout`, which mirrors `time.Since(startTime) >=
Duration`).  Each case is translated from the corresponding Go method; the
`default` branches of the Go `switch` statements become the `Ready` cases
here, because the library-internal `Status` values are exactly the four
constructors. -/
def tick (now : Int) : BNode → BNode × Status
  | .Action run _ =>
    match run with
    | none => (.Action none .Failure, .Failure)
    | some v =>
      let st := normalizeStatus v
      (.Action (some v) st, st)
  | .Condition check _ =>
    match check with
    | none => (.Condition none .Failure, .Failure)
    | some v =>
      let st := normalizeStatus v
      (.Condition (some v) st, st)
  | .ConditionB check => (.ConditionB check, statusOf (.ConditionB check))
  | .Composite conds child _ =>
    if conds.length = 0 then
      match child with
      | .child c =>
        let (c', s) := tick now c
        (.Composite conds (.child c') s, s)
      | .nil => (.Composite conds .nil .Failure, .Failure)
    else
      match tickGate now conds with
      | (conds', some s) => (.Composite conds' child s, s)
      | (conds', none) =>
        match child with
        | .nil => (.Composite conds' .nil .Success, .Success)
        | .child c =>
          let (c', s) := tick now c
          (.Composite conds' (.child c') s, s)
  | .Selector cs _ =>
    let (cs', r) := tickSel now cs
    (.Selector cs' r, r)
  | .Sequence cs _ =>
    let (cs', r) := tickSeq now cs
    (.Sequence cs' r, r)
  | .Parallel cs m _ =>
    if cs.length = 0 then (.Parallel cs m .Success, .Success)
    else
      let m1 : Int := if m ≤ 0 then 1 else m
      let m2 : Int := if m1 > (cs.length : Int) then (cs.length : Int) else m1
      let (cs', sc, _fc, rc) := tickPar now cs
      let res : Status :=
        if (sc : Int) ≥ m2 then .Success
        else if (sc : Int) + (rc : Int) < m2 then .Failure
        else if rc > 0 then .Running
        else .Failure
      (.Parallel cs' m2 res, res)
  | .Retry child _ =>
    match child with
    | .nil => (.Retry .nil .Failure, .Failure)
    | .child c =>
      let (c', s) := tick now c
      match s with
      | .Success => (.Retry (.child c') .Success, .Success)
      | .Running => (.Retry (.child c') .Running, .Running)
      | .Failure => (.Retry (.child (reset c').1) .Running, .Running)
      | .Ready => (.Retry (.child c') .Running, .Running)
  | .Repeat child _ =>
    match child with
    | .nil => (.Repeat .nil .Failure, .Failure)
    | .child c =>
      let (c', s) := tick now c
      match s with
      | .Success => (.Repeat (.child (reset c').1) .Running, .Running)
      | .Running => (.Repeat (.child c') .Running, .Running)
      | .Failure => (.Repeat (.child c') .Failure, .Failure)
      | .Ready => (.Repeat (.child c') .Failure, .Failure)
  | .Invert child _ =>
    match child with
    | .nil => (.Invert .nil .Failure, .Failure)
    | .child c =>
      let (c', s) := tick now c
      match s with
      | .Success => (.Invert (.child c') .Failure, .Failure)
      | .Failure => (.Invert (.child c') .Success, .Success)
      | .Running => (.Invert (.child c') .Running, .Running)
      | .Ready => (.Invert (.child c') .Ready, .Ready)
  | .AlwaysSuccess child _ =>
    match child with
    | .nil => (.AlwaysSuccess .nil .Success, .Success)
    | .child c =>
      let (c', s) := tick now c
      let st := if s = .Failure then .Success else s
      (.AlwaysSuccess (.child c') st, st)
  | .AlwaysFailure child _ =>
    match child with
    | .nil => (.AlwaysFailure .nil .Failure, .Failure)
    | .child c =>
      let (c', s) := tick now c
      let st := if s = .Success then .Failure else s
      (.AlwaysFailure (.child c') st, st)
  | .RepeatN child maxC cnt st =>
    match child with
    | .nil => (.RepeatN .nil maxC maxC .Failure, .Failure)
    | .child c =>
      if maxC ≤ 0 ∨ cnt < maxC then
        let (c', s) := tick now c
        if s = .Running then (.RepeatN (.child c') maxC cnt .Running, .Running)
        else
          let cnt' := cnt + 1
          if maxC > 0 ∧ cnt' ≥ maxC then (.RepeatN (.child c') maxC cnt' s, s)
          else (.RepeatN (.child (reset c').1) maxC cnt' .Running, .Running)
      else (.RepeatN (.child c) maxC cnt st, st)
  | .Forever child _ =>
    match child with
    | .nil => (.Forever .nil .Running, .Running)
    | .child c =>
      let (c', _) := tick now c
      (.Forever (.child c') .Running, .Running)
  | .WhileSuccess child _ =>
    match child with
    | .nil => (.WhileSuccess .nil .Failure, .Failure)
    | .child c =>
      let (c', s) := tick now c
      if s = .Running ∨ s = .Success then
        let c'' := if s = .Success then (reset c').1 else c'
        (.WhileSuccess (.child c'') .Running, .Running)
      else (.WhileSuccess (.child c') .Failure, .Failure)
  | .WhileFailure child _ =>
    match child with
    | .nil => (.WhileFailure .nil .Success, .Success)
    | .child c =>
      let (c', s) := tick now c
      match s with
      | .Running => (.WhileFailure (.child c') .Running, .Running)
      | .Failure => (.WhileFailure (.child (reset c').1) .Running, .Running)
      | .Success => (.WhileFailure (.child c') .Success, .Success)
      | .Ready => (.WhileFailure (.child c') .Running, .Running)
  | .WithTimeout child d start _ =>
    match child with
    | .nil => (.WithTimeout .nil d start .Failure, .Failure)
    | .child c =>
      let startVal : Int := match start with | none => now | some t => t
      let (c', s) := tick now c
      match s with
      | .Success => (.WithTimeout (.child c') d (some startVal) .Success, .Success)
      | .Failure => (.WithTimeout (.child c') d (some startVal) .Failure, .Failure)
      | .Running =>
        if now - startVal ≥ d then
          (.WithTimeout (.child c') d (some startVal) .Failure, .Failure)
        else
          (.WithTimeout (.child c') d (some startVal) .Running, .Running)
      | .Ready => (.WithTimeout (.child c') d (some startVal) .Failure, .Failure)
  | .Log child _ =>
    match child with
    | .nil => (.Log .nil .Failure, .Failure)
    | .child c =>
      let (c', s) := tick now c
      (.Log (.child c') s, s)
termination_by structural n => n

/-- The condition loop of `Composite.Tick`: conditions are ticked in order;
`Success` continues, `Running` aborts with `Running`, `Failure` or `Ready`
(or the unreachable `default`) aborts with `Failure`; `none` means every
condition passed.  Conditions after the aborting one are not ticked. -/
def tickGate (now : Int) : BNodes → BNodes × Option Status
  | .nil => (.nil, none)
  | .cons c t =>
    let (c', s) := tick now c
    match s with
    | .Success =>
      let (t', r) := tickGate now t
      (.cons c' t', r)
    | .Running => (.cons c' t, some .Running)
    | .Failure => (.cons c' t, some .Failure)
    | .Ready => (.cons c' t, some .Failure)
termination_by structural n => n

/-- The child loop of `Selector.Tick`: `Failure` continues, anything else
stops and is returned; an exhausted list gives `Failure`. -/
def tickSel (now : Int) : BNodes → BNodes × Status
  | .nil => (.nil, .Failure)
  | .cons c t =>
    let (c', s) := tick now c
    match s with
    | .Failure =>
      let (t', r) := tickSel now t
      (.cons c' t', r)
    | s => (.cons c' t, s)
termination_by structural n => n

/-- The child loop of `Sequence.Tick`: `Success` continues, anything else
stops and is returned; an exhausted list gives `Success`. -/
def tickSeq (now : Int) : BNodes → BNodes × Status
  | .nil => (.nil, .Success)
  | .cons c t =>
    let (c', s) := tick now c
    match s with
    | .Success =>
      let (t', r) := tickSeq now t
      (.cons c' t', r)
    | s => (.cons c' t, s)
termination_by structural n => n

/-- The child loop of `Parallel.Tick`: ticks every child and accumulates
`(successCount, failureCount, runningCount)`; `Ready` is counted as still
processing, i.e. into `runningCount`. -/
def tickPar (now : Int) : BNodes → BNodes × Nat × Nat × Nat
  | .nil => (.nil, 0, 0, 0)
  | .cons c t =>
    let (c', s) := tick now c
    let (t', sc, fc, rc) := tickPar now t
    match s with
    | .Success => (.cons c' t', sc + 1, fc, rc)
    | .Failure => (.cons c' t', sc, fc + 1, rc)
    | .Running => (.cons c' t', sc, fc, rc + 1)
    | .Ready => (.cons c' t', sc, fc, rc + 1)
termination_by structural n => n
end

/-- Characterization of the `Sequence.Tick` child loop: either every child
ticks `Success` — then every child is ticked and the loop reports `Success`
— or there is a first child whose tick is not `Success`; the loop then
reports exactly that status, the children up to and including it are
replaced by their ticked states, and the children after it are untouched. -/
theorem tickSeq_spec (now : Int) (cs : BNodes) :
    ((∀ i x, cs.get? i = some x → (tick now x).2 = .Success) ∧
       tickSeq now cs = (cs.map (fun c => (tick now c).1), .Success))
    ∨ (∃ k c, cs.get? k = some c ∧
         (∀ i x, i < k → cs.get? i = some x → (tick now x).2 = .Success) ∧
         (tick now c).2 ≠ .Success ∧
         tickSeq now cs =
           (BNodes.append ((cs.take (k + 1)).map (fun x => (tick now x).1))
              (cs.drop (k + 1)),
            (tick now c).2)) := by
  cases cs with
  | nil =>
    left
    refine ⟨?_, rfl⟩
    intro i x hx
    cases i <;> simp [BNodes.get?] at hx
  | cons h t =>
    have ih := tickSeq_spec now t
    rcases hts : tick now h with ⟨h', s⟩
    by_cases hs : s = .Success
    · subst hs
      rcases ih with ⟨hall, heq⟩ | ⟨k, c, hget, hpre, hns, heq⟩
      · left
        constructor
        · intro i x hx
          cases i with
          | zero =>
            simp [BNodes.get?] at hx
            subst hx
            simp [hts]
          | succ n => exact hall n x (by simpa [BNodes.get?] using hx)
        · simp [tickSeq, hts, heq, BNodes.map]
      · right
        refine ⟨k + 1, c, by simpa [BNodes.get?] using hget, ?_, hns, ?_⟩
        · intro i x hi hx
          cases i with
          | zero =>
            simp [BNodes.get?] at hx
            subst hx
            simp [hts]
          | succ n => exact hpre n x (by omega) (by simpa [BNodes.get?] using hx)
        · simp [tickSeq, hts, heq, BNodes.take, BNodes.map, BNodes.append, BNodes.drop]
    · right
      refine ⟨0, h, rfl, by intro i x hi hx; omega, by simp [hts, hs], ?_⟩
      simp [hts]
      cases s <;>
        simp_all [tickSeq, hts, BNodes.take, BNodes.map, BNodes.append, BNodes.drop]
termination_by structural cs

/-- Claim C1: `Sequence.Tick` (`sequence.go` lines 21–37) ticks children in
order; the first child returning a status other than `Success` makes the
sequence return that exact status, the children after it are not ticked in
that call (their states are unchanged in the result); if every child
returns `Success` — in particular for an empty child list — the result is
`Success`. -/
theorem sequence_tick_shortcircuit (now : Int) (cs : BNodes) (st : Status) :
    ((∀ i x, cs.get? i = some x → (tick now x).2 = .Success) ∧
       tick now (.Sequence cs st) =
         (.Sequence (cs.map (fun c => (tick now c).1)) .Success, .Success))
    ∨ (∃ k c, cs.get? k = some c ∧
         (∀ i x, i < k → cs.get? i = some x → (tick now x).2 = .Success) ∧
         (tick now c).2 ≠ .Success ∧
         tick now (.Sequence cs st) =
           (.Sequence
              (BNodes.append ((cs.take (k + 1)).map (fun x => (tick now x).1))
                 (cs.drop (k + 1)))
              ((tick now c).2),
            (tick now c).2)) := by
  have hunf : tick now (.Sequence cs st) =
      (.Sequence (tickSeq now cs).1 (tickSeq now cs).2, (tickSeq now cs).2) := rfl
  rcases tickSeq_spec now cs with ⟨hall, heq⟩ | ⟨k, c, hget, hpre, hns, heq⟩
  · left
    exact ⟨hall, by rw [hunf, heq]⟩
  · right
    exact ⟨k, c, hget, hpre, hns, by rw [hunf, heq]⟩

/-- The value `Parallel.MinSuccessCount` holds after the two validating
`if` statements at the top of `Parallel.Tick`: at least 1, and at most the
number of children. -/
def clampMinSuccess (m : Int) (n : Nat) : Int :=
  if (if m ≤ 0 then 1 else m) > (n : Int) then (n : Int) else if m ≤ 0 then 1 else m

/-- The decision rule of `Parallel.Tick`, applied to the clamped minimum
and the tallied success and running counts (`Ready` children having been
tallied as running): `Success` when the threshold is met, `Failure` when it
can no longer be met, `Running` while any child is in progress, otherwise
`Failure`. -/
def parallelDecision (minCount : Int) (sc rc : Nat) : Status :=
  if (sc : Int) ≥ minCount then .Success
  else if (sc : Int) + (rc : Int) < minCount then .Failure
  else if rc > 0 then .Running
  else .Failure

/-- The `Parallel.Tick` child loop ticks every child and tallies exactly
the number of `Success`, `Failure`, and `Running`-or-`Ready` results. -/
theorem tickPar_spec (now : Int) (cs : BNodes) :
    tickPar now cs =
      (cs.map (fun c => (tick now c).1),
       cs.countP (fun c => (tick now c).2 == .Success),
       cs.countP (fun c => (tick now c).2 == .Failure),
       cs.countP (fun c => (tick now c).2 == .Running || (tick now c).2 == .Ready)) := by
  cases cs with
  | nil => rfl
  | cons h t =>
    have ih := tickPar_spec now t
    rcases hts : tick now h with ⟨h', s⟩
    cases s <;>
      simp [tickPar, hts, ih, BNodes.map, BNodes.countP, Prod.ext_iff] <;> omega
termination_by structural cs

/-- Claim C2: `Parallel.Tick` (`behaviortree.go` lines 480–536) with a
non-empty child list clamps `MinSuccessCount` into `[1, len(Children)]`,
ticks all children (tallying `Success` as success, `Failure` as failure,
and `Running` or `Ready` as running), and returns `Success` when
`successCount ≥ MinSuccessCount`, else `Failure` when
`successCount + runningCount < MinSuccessCount`, else `Running` when
`runningCount > 0`, else `Failure`; an empty child list yields `Success`
(without clamping). -/
theorem parallel_tick_threshold (now : Int) (cs : BNodes) (m : Int) (st : Status) :
    (cs = .nil ∧ tick now (.Parallel cs m st) = (.Parallel cs m .Success, .Success))
    ∨ (cs ≠ .nil ∧
       (1 : Int) ≤ clampMinSuccess m cs.length ∧
       clampMinSuccess m cs.length ≤ (cs.length : Int) ∧
       tick now (.Parallel cs m st) =
         (.Parallel (cs.map (fun c => (tick now c).1)) (clampMinSuccess m cs.length)
            (parallelDecision (clampMinSuccess m cs.length)
               (cs.countP (fun c => (tick now c).2 == .Success))
               (cs.countP (fun c => (tick now c).2 == .Running || (tick now c).2 == .Ready))),
          parallelDecision (clampMinSuccess m cs.length)
            (cs.countP (fun c => (tick now c).2 == .Success))
            (cs.countP (fun c => (tick now c).2 == .Running || (tick now c).2 == .Ready)))) := by
  cases cs with
  | nil => exact Or.inl ⟨rfl, rfl⟩
  | cons h t =>
    right
    have hlen : BNodes.length (.cons h t) = 1 + t.length := rfl
    refine ⟨(by intro hc; cases hc), ?_, ?_, ?_⟩
    · unfold clampMinSuccess
      split <;> split <;> omega
    · unfold clampMinSuccess
      split <;> split <;> omega
    · have hne : ¬ BNodes.length (.cons h t) = 0 := by omega
      simp only [tick, hne, if_false, tickPar_spec]
      rfl

/-- Claim C7 helper: the condition loop of `Composite.Tick` ticks
conditions in order; either every condition ticks `Success` (reported as
`none`), or there is a first condition whose tick is not `Success`: a
`Running` one aborts with `Running`, a `Failure` or `Ready` one aborts with
`Failure`, and in either case later conditions are untouched. -/
theorem tickGate_spec (now : Int) (cs : BNodes) :
    ((∀ i x, cs.get? i = some x → (tick now x).2 = .Success) ∧
       tickGate now cs = (cs.map (fun c => (tick now c).1), none))
    ∨ (∃ k c, cs.get? k = some c ∧
         (∀ i x, i < k → cs.get? i = some x → (tick now x).2 = .Success) ∧
         (((tick now c).2 = .Running ∧
            tickGate now cs =
              (BNodes.append ((cs.take (k + 1)).map (fun x => (tick now x).1))
                 (cs.drop (k + 1)),
               some .Running))
          ∨ (((tick now c).2 = .Failure ∨ (tick now c).2 = .Ready) ∧
            tickGate now cs =
              (BNodes.append ((cs.take (k + 1)).map (fun x => (tick now x).1))
                 (cs.drop (k + 1)),
               some .Failure)))) := by
  cases cs with
  | nil =>
    left
    refine ⟨?_, rfl⟩
    intro i x hx
    cases i <;> simp [BNodes.get?] at hx
  | cons h t =>
    have ih := tickGate_spec now t
    rcases hts : tick now h with ⟨h', s⟩
    by_cases hs : s = .Success
    · subst hs
      rcases ih with ⟨hall, heq⟩ | ⟨k, c, hget, hpre, hcase⟩
      · left
        constructor
        · intro i x hx
          cases i with
          | zero =>
            simp [BNodes.get?] at hx
            subst hx
            simp [hts]
          | succ n => exact hall n x (by simpa [BNodes.get?] using hx)
        · simp [tickGate, hts, heq, BNodes.map]
      · right
        refine ⟨k + 1, c, by simpa [BNodes.get?] using hget, ?_, ?_⟩
        · intro i x hi hx
          cases i with
          | zero =>
            simp [BNodes.get?] at hx
            subst hx
            simp [hts]
          | succ n => exact hpre n x (by omega) (by simpa [BNodes.get?] using hx)
        · rcases hcase with ⟨hrun, heq⟩ | ⟨hfr, heq⟩
          · left
            exact ⟨hrun,
              by simp [tickGate, hts, heq, BNodes.take, BNodes.map, BNodes.append, BNodes.drop]⟩
          · right
            exact ⟨hfr,
              by simp [tickGate, hts, heq, BNodes.take, BNodes.map, BNodes.append, BNodes.drop]⟩
    · right
      refine ⟨0, h, rfl, by intro i x hi hx; omega, ?_⟩
      cases s with
      | Success => exact absurd rfl hs
      | Running =>
        left
        refine ⟨by simp [hts], ?_⟩
        simp [tickGate, hts, BNodes.take, BNodes.map, BNodes.append, BNodes.drop]
      | Failure =>
        right
        refine ⟨by simp [hts], ?_⟩
        simp [tickGate, hts, BNodes.take, BNodes.map, BNodes.append, BNodes.drop]
      | Ready =>
        right
        refine ⟨by simp [hts], ?_⟩
        simp [tickGate, hts, BNodes.take, BNodes.map, BNodes.append, BNodes.drop]
termination_by structural cs

/-- Claim C7: `Composite.Tick` (`composite.go` lines 17–61) with a
non-empty condition list evaluates conditions in order — `Success`
continues, `Running` makes the composite return `Running`, and `Failure` or
`Ready` makes it return `Failure`, in each aborting case without ticking
the child (the child slot is unchanged); when all conditions tick `Success`
the child is ticked and its status returned verbatim, or `Success` is
returned when there is no child; with no conditions and no child the result
is `Failure`; with no conditions but a child the child's status is returned
verbatim. -/
theorem composite_tick_gate (now : Int) (conds : BNodes) (child : OBNode) (st : Status) :
    (conds = .nil ∧ child = .nil ∧
       tick now (.Composite conds child st) = (.Composite conds .nil .Failure, .Failure))
    ∨ (conds = .nil ∧ ∃ c, child = .child c ∧
       tick now (.Composite conds child st) =
         (.Composite conds (.child (tick now c).1) (tick now c).2, (tick now c).2))
    ∨ (conds ≠ .nil ∧ (∀ i x, conds.get? i = some x → (tick now x).2 = .Success) ∧
        ((child = .nil ∧
           tick now (.Composite conds child st) =
             (.Composite (conds.map (fun x => (tick now x).1)) .nil .Success, .Success))
         ∨ (∃ c, child = .child c ∧
           tick now (.Composite conds child st) =
             (.Composite (conds.map (fun x => (tick now x).1)) (.child (tick now c).1)
                (tick now c).2,
              (tick now c).2))))
    ∨ (conds ≠ .nil ∧ ∃ k c0, conds.get? k = some c0 ∧
        (∀ i x, i < k → conds.get? i = some x → (tick now x).2 = .Success) ∧
        (((tick now c0).2 = .Running ∧
           tick now (.Composite conds child st) =
             (.Composite
                (BNodes.append ((conds.take (k + 1)).map (fun x => (tick now x).1))
                   (conds.drop (k + 1)))
                child .Running,
              .Running))
         ∨ (((tick now c0).2 = .Failure ∨ (tick now c0).2 = .Ready) ∧
           tick now (.Composite conds child st) =
             (.Composite
                (BNodes.append ((conds.take (k + 1)).map (fun x => (tick now x).1))
                   (conds.drop (k + 1)))
                child .Failure,
              .Failure)))) := by
  cases conds with
  | nil =>
    cases child with
    | nil => exact Or.inl ⟨rfl, rfl, rfl⟩
    | child c => exact Or.inr (Or.inl ⟨rfl, c, rfl, rfl⟩)
  | cons h t =>
    have hne : ¬ BNodes.length (.cons h t) = 0 := by
      simp [BNodes.length]
    rcases tickGate_spec now (.cons h t) with ⟨hall, heq⟩ | ⟨k, c0, hget, hpre, hcase⟩
    · right; right; left
      refine ⟨(by intro hc; cases hc), hall, ?_⟩
      cases child with
      | nil =>
        left
        exact ⟨rfl, by simp [tick, hne, heq]⟩
      | child c =>
        right
        exact ⟨c, rfl, by simp [tick, hne, heq]⟩
    · right; right; right
      refine ⟨(by intro hc; cases hc), k, c0, hget, hpre, ?_⟩
      rcases hcase with ⟨hrun, heq⟩ | ⟨hfr, heq⟩
      · refine Or.inl ⟨hrun, ?_⟩
        cases child <;> simp [tick, hne, heq]
      · refine Or.inr ⟨hfr, ?_⟩
        cases child <;> simp [tick, hne, heq]

mutual
/-- Whether a node and every one of its descendants report status `Ready`
(each node's `Status()` accessor returning `Ready`). -/
def allReady : BNode → Bool
  | .Action _ st => st == .Ready
  | .Condition _ st => st == .Ready
  | .ConditionB check => statusOf (.ConditionB check) == .Ready
  | .Composite conds child st => st == .Ready && allReadyL conds && allReadyO child
  | .Selector cs st => st == .Ready && allReadyL cs
  | .Sequence cs st => st == .Ready && allReadyL cs
  | .Parallel cs _ st => st == .Ready && allReadyL cs
  | .Retry child st => st == .Ready && allReadyO child
  | .Repeat child st => st == .Ready && allReadyO child
  | .Invert child st => st == .Ready && allReadyO child
  | .AlwaysSuccess child st => st == .Ready && allReadyO child
  | .AlwaysFailure child st => st == .Ready && allReadyO child
  | .RepeatN child _ _ st => st == .Ready && allReadyO child
  | .Forever child st => st == .Ready && allReadyO child
  | .WhileSuccess child st => st == .Ready && allReadyO child
  | .WhileFailure child st => st == .Ready && allReadyO child
  | .WithTimeout child _ _ st => st == .Ready && allReadyO child
  | .Log child st => st == .Ready && allReadyO child
termination_by structural n => n

/-- `allReady` on an optional child (vacuously true when absent). -/
def allReadyO : OBNode → Bool
  | .nil => true
  | .child c => allReady c
termination_by structural n => n

/-- `allReady` on a child list. -/
def allReadyL : BNodes → Bool
  | .nil => true
  | .cons h t => allReady h && allReadyL t
termination_by structural n => n
end

mutual
/-- Whether a tree contains no `behaviortree.go`-style stateless
`Condition` node (the one node type whose `Status()` does not report the
cached status). -/
def noStatelessCond : BNode → Bool
  | .Action _ _ => true
  | .Condition _ _ => true
  | .ConditionB _ => false
  | .Composite conds child _ => noStatelessCondL conds && noStatelessCondO child
  | .Selector cs _ => noStatelessCondL cs
  | .Sequence cs _ => noStatelessCondL cs
  | .Parallel cs _ _ => noStatelessCondL cs
  | .Retry child _ => noStatelessCondO child
  | .Repeat child _ => noStatelessCondO child
  | .Invert child _ => noStatelessCondO child
  | .AlwaysSuccess child _ => noStatelessCondO child
  | .AlwaysFailure child _ => noStatelessCondO child
  | .RepeatN child _ _ _ => noStatelessCondO child
  | .Forever child _ => noStatelessCondO child
  | .WhileSuccess child _ => noStatelessCondO child
  | .WhileFailure child _ => noStatelessCondO child
  | .WithTimeout child _ _ _ => noStatelessCondO child
  | .Log child _ => noStatelessCondO child
termination_by structural n => n

/-- `noStatelessCond` on an optional child. -/
def noStatelessCondO : OBNode → Bool
  | .nil => true
  | .child c => noStatelessCond c
termination_by structural n => n

/-- `noStatelessCond` on a child list. -/
def noStatelessCondL : BNodes → Bool
  | .nil => true
  | .cons h t => noStatelessCond h && noStatelessCondL t
termination_by structural n => n
end

mutual
/-- After `Reset()`, a tree free of stateless `Condition` nodes reports
`Ready` at every node. -/
theorem reset_allReady (t : BNode) (h : noStatelessCond t = true) :
    allReady (reset t).1 = true := by
  cases t with
  | Action run st => rfl
  | Condition check st => rfl
  | ConditionB check => simp [noStatelessCond] at h
  | Composite conds child st =>
    have hc : noStatelessCondL conds = true ∧ noStatelessCondO child = true := by
      simpa [noStatelessCond, Bool.and_eq_true] using h
    simp [reset, allReady, Bool.and_eq_true,
      reset_allReadyL conds hc.1, reset_allReadyO child hc.2]
  | Selector cs st =>
    simp [reset, allReady, Bool.and_eq_true,
      reset_allReadyL cs (by simpa [noStatelessCond] using h)]
  | Sequence cs st =>
    simp [reset, allReady, Bool.and_eq_true,
      reset_allReadyL cs (by simpa [noStatelessCond] using h)]
  | Parallel cs m st =>
    simp [reset, allReady, Bool.and_eq_true,
      reset_allReadyL cs (by simpa [noStatelessCond] using h)]
  | Retry child st =>
    simp [reset, allReady, Bool.and_eq_true,
      reset_allReadyO child (by simpa [noStatelessCond] using h)]
  | Repeat child st =>
    simp [reset, allReady, Bool.and_eq_true,
      reset_allReadyO child (by simpa [noStatelessCond] using h)]
  | Invert child st =>
    simp [reset, allReady, Bool.and_eq_true,
      reset_allReadyO child (by simpa [noStatelessCond] using h)]
  | AlwaysSuccess child st =>
    simp [reset, allReady, Bool.and_eq_true,
      reset_allReadyO child (by simpa [noStatelessCond] using h)]
  | AlwaysFailure child st =>
    simp [reset, allReady, Bool.and_eq_true,
      reset_allReadyO child (by simpa [noStatelessCond] using h)]
  | RepeatN child maxC cnt st =>
    simp [reset, allReady, Bool.and_eq_true,
      reset_allReadyO child (by simpa [noStatelessCond] using h)]
  | Forever child st =>
    simp [reset, allReady, Bool.and_eq_true,
      reset_allReadyO child (by simpa [noStatelessCond] using h)]
  | WhileSuccess child st =>
    simp [reset, allReady, Bool.and_eq_true,
      reset_allReadyO child (by simpa [noStatelessCond] using h)]
  | WhileFailure child st =>
    simp [reset, allReady, Bool.and_eq_true,
      reset_allReadyO child (by simpa [noStatelessCond] using h)]
  | WithTimeout child d s0 st =>
    simp [reset, allReady, Bool.and_eq_true,
      reset_allReadyO child (by simpa [noStatelessCond] using h)]
  | Log child st =>
    simp [reset, allReady, Bool.and_eq_true,
      reset_allReadyO child (by simpa [noStatelessCond] using h)]
termination_by structural t

/-- `reset_allReady` for an optional child. -/
theorem reset_allReadyO (o : OBNode) (h : noStatelessCondO o = true) :
    allReadyO (resetO o) = true := by
  cases o with
  | nil => rfl
  | child c =>
    simpa [resetO, allReadyO] using
      reset_allReady c (by simpa [noStatelessCondO] using h)
termination_by structural o

/-- `reset_allReady` for a child list. -/
theorem reset_allReadyL (l : BNodes) (h : noStatelessCondL l = true) :
    allReadyL (resetList l) = true := by
  cases l with
  | nil => rfl
  | cons x xs =>
    have hx : noStatelessCond x = true ∧ noStatelessCondL xs = true := by
      simpa [noStatelessCondL, Bool.and_eq_true] using h
    simp [resetList, allReadyL, Bool.and_eq_true,
      reset_allReady x hx.1, reset_allReadyL xs hx.2]
termination_by structural l
end

/-- `Reset()` itself always returns `Ready`, for every node type. -/
theorem reset_returns_ready (t : BNode) : (reset t).2 = .Ready := by
  cases t <;> rfl

/-- Claim C3 counterexample: for `behaviortree.go`'s `Condition` (lines
167–212) with `Check` returning `true`, `Reset()` returns `Ready` but the
node's `Status()` afterwards reports `Success`, not `Ready` — `Status()`
re-evaluates `Check` instead of reporting a cached reset status, so the
claim "after Reset, Status() returns Ready" fails for this node type. -/
theorem reset_conditionB_cex :
    (reset (.ConditionB (some true))).2 = .Ready
    ∧ statusOf (reset (.ConditionB (some true))).1 = .Success
    ∧ Status.Success ≠ Status.Ready := ⟨rfl, rfl, by decide⟩

/-- Claim C3 (amended): for every node type except `behaviortree.go`'s
stateless `Condition` — i.e. for every tree containing no such node —
calling `Reset` after any sequence of ticks (the theorem quantifies over
arbitrary node states, which include all tick-reachable ones) returns
`Ready` and makes the node's `Status()` and every descendant's `Status()`
report `Ready`.  A stateless `Condition` anywhere in the tree breaks the
claim, since its `Status()` re-evaluates `Check` and never reports
`Ready`. -/
theorem reset_restores_ready (t : BNode) (h : noStatelessCond t = true) :
    (reset t).2 = .Ready ∧ allReady (reset t).1 = true :=
  ⟨reset_returns_ready t, reset_allReady t h⟩

/-- Claim C3 amended-theorem witness: the reset theorem applied to a
concrete ticked tree: a `Sequence` over an `Action` in `Success` state and
an `Invert` decorator over a caching `Condition` in `Failure` state. -/
theorem reset_restores_ready_witness :
    noStatelessCond
        (.Sequence
          (.cons (.Action (some 2) .Success)
            (.cons (.Invert (.child (.Condition (some 3) .Failure)) .Success) .nil))
          .Running) = true
    ∧ ((reset
          (.Sequence
            (.cons (.Action (some 2) .Success)
              (.cons (.Invert (.child (.Condition (some 3) .Failure)) .Success) .nil))
            .Running)).2 = .Ready
       ∧ allReady
          (reset
            (.Sequence
              (.cons (.Action (some 2) .Success)
                (.cons (.Invert (.child (.Condition (some 3) .Failure)) .Success) .nil))
              .Running)).1 = true) :=
  ⟨by decide,
   reset_restores_ready
     (.Sequence
       (.cons (.Action (some 2) .Success)
         (.cons (.Invert (.child (.Condition (some 3) .Failure)) .Success) .nil))
       .Running)
     (by decide)⟩

/-- Claim C5: for a `RepeatN` node with `MaxCount = 3` whose child always
returns `Success` (an `Action` whose `Run` returns the `Success` code 2),
ticks 1 and 2 return `Running` with `Count` equal to 1 then 2, tick 3
returns `Success` with `Count = 3`, and — shown by the last conjunct for an
arbitrary child, so the child's state is provably untouched — every
subsequent tick returns the frozen `Success` again without incrementing
`Count` and without ticking the child (the post-tick-3 state is a fixed
point of `tick`). -/
theorem repeatN_exact_count (now : Int) :
    tick now (.RepeatN (.child (.Action (some 2) .Ready)) 3 0 .Ready) =
      (.RepeatN (.child (.Action (some 2) .Ready)) 3 1 .Running, .Running)
    ∧ tick now (.RepeatN (.child (.Action (some 2) .Ready)) 3 1 .Running) =
      (.RepeatN (.child (.Action (some 2) .Ready)) 3 2 .Running, .Running)
    ∧ tick now (.RepeatN (.child (.Action (some 2) .Ready)) 3 2 .Running) =
      (.RepeatN (.child (.Action (some 2) .Success)) 3 3 .Success, .Success)
    ∧ ∀ (c : BNode) (st : Status),
        tick now (.RepeatN (.child c) 3 3 st) = (.RepeatN (.child c) 3 3 st, st) := by
  refine ⟨rfl, rfl, rfl, ?_⟩
  intro c st
  rfl

/-- Claim C4 counterexample: `AlwaysSuccess.Tick` of `behaviortree.go`
(lines 819–834) does *not* return `Success` when its child returns
`Running`: with a child `Action` whose `Run` returns the `Running` code 1,
the tick returns `Running`.  (Only a child's `Failure` is rewritten to
`Success`; `Running` and `Ready` are passed through.) -/
theorem alwaysSuccess_running_cex :
    (tick 0 (.AlwaysSuccess (.child (.Action (some 1) .Ready)) .Ready)).2 = .Running
    ∧ Status.Running ≠ Status.Success := ⟨rfl, by decide⟩

/-- Claim C4 (amended): `AlwaysSuccess.Tick` with a child ticks the child
and returns `Success` when the child returns `Success` or `Failure`; a
child's `Running` or `Ready` status is returned unchanged (it is not forced
to `Success`); with no child it returns `Success`. -/
theorem alwaysSuccess_tick_characterization (now : Int) (c : BNode) (st : Status) :
    tick now (.AlwaysSuccess (.child c) st) =
      (.AlwaysSuccess (.child (tick now c).1)
        (if (tick now c).2 = .Failure then .Success else (tick now c).2),
       if (tick now c).2 = .Failure then .Success else (tick now c).2)
    ∧ tick now (.AlwaysSuccess .nil st) = (.AlwaysSuccess .nil .Success, .Success) := by
  constructor
  · rcases hts : tick now c with ⟨c', s⟩
    cases s <;> simp [tick, hts]
  · rfl

/-- Claim C6 counterexample: with `MaxCount = 0` and a child `Action` whose
`Run` returns `Success`, `RepeatN.Tick` of `behaviortree.go` (lines
964–999) returns `Running` — not the child's `Success` — and increments
`Count` from 0 to 1 (and resets the child), so ticks are neither
pass-through nor uncounted. -/
theorem repeatN_nonpositive_cex :
    tick 0 (.RepeatN (.child (.Action (some 2) .Ready)) 0 0 .Ready) =
      (.RepeatN (.child (.Action (some 2) .Ready)) 0 1 .Running, .Running)
    ∧ Status.Running ≠ Status.Success ∧ (1 : Int) ≠ 0 := ⟨rfl, by decide, by decide⟩

/-- Claim C6 (amended): for `MaxCount ≤ 0` and a non-nil child,
`RepeatN.Tick` always returns `Running`, never mirroring the child's
status: a `Running` child leaves `Count` unchanged, while a child finishing
with any other status has `Count` incremented and is reset for the next
iteration — i.e. `MaxCount ≤ 0` behaves as an unbounded repeater, not as an
uncounted pass-through. -/
theorem repeatN_nonpositive_max (now : Int) (c : BNode) (maxC cnt : Int) (st : Status)
    (h : maxC ≤ 0) :
    tick now (.RepeatN (.child c) maxC cnt st) =
      if (tick now c).2 = .Running then
        (.RepeatN (.child (tick now c).1) maxC cnt .Running, .Running)
      else
        (.RepeatN (.child (reset (tick now c).1).1) maxC (cnt + 1) .Running, .Running) := by
  rcases hts : tick now c with ⟨c', s⟩
  have hcond : maxC ≤ 0 ∨ cnt < maxC := Or.inl h
  have hnot : ¬(maxC > 0 ∧ cnt + 1 ≥ maxC) := by omega
  cases s <;> simp [tick, hts, hcond, hnot]

/-- Claim C6 amended-theorem witness: the amended characterization applied
at `MaxCount = 0`, `Count = 0`, child = `Action` returning `Success`. -/
theorem repeatN_nonpositive_max_witness :
    (0 : Int) ≤ 0 ∧
      tick 0 (.RepeatN (.child (.Action (some 2) .Ready)) 0 0 .Ready) =
        if (tick 0 (.Action (some 2) .Ready)).2 = .Running then
          (.RepeatN (.child (tick 0 (.Action (some 2) .Ready)).1) 0 0 .Running, .Running)
        else
          (.RepeatN (.child (reset (tick 0 (.Action (some 2) .Ready)).1).1) 0 (0 + 1) .Running,
           .Running) :=
  ⟨by decide, repeatN_nonpositive_max 0 (.Action (some 2) .Ready) 0 0 .Ready (by decide)⟩

/-- Claim C8: `Action.Tick` (`action.go` lines 12–26) and `Condition.Tick`
(`condition.go` lines 12–26) return `Failure` when the host-supplied
callback (`Run` / `Check`) is absent; a callback returning one of the four
recognized status codes has that status returned (and cached) unchanged;
a callback returning any other value is normalized to `Failure`. -/
theorem leaf_callback_normalization (now : Int) (st : Status) :
    tick now (.Action none st) = (.Action none .Failure, .Failure)
    ∧ tick now (.Condition none st) = (.Condition none .Failure, .Failure)
    ∧ (∀ s : Status,
        tick now (.Action (some (statusCode s)) st) = (.Action (some (statusCode s)) s, s))
    ∧ (∀ s : Status,
        tick now (.Condition (some (statusCode s)) st) = (.Condition (some (statusCode s)) s, s))
    ∧ (∀ v : Int, (∀ s : Status, v ≠ statusCode s) →
        (tick now (.Action (some v) st)).2 = .Failure)
    ∧ (∀ v : Int, (∀ s : Status, v ≠ statusCode s) →
        (tick now (.Condition (some v) st)).2 = .Failure) := by
  refine ⟨rfl, rfl, ?_, ?_, ?_, ?_⟩
  · intro s; cases s <;> rfl
  · intro s; cases s <;> rfl
  · intro v hv
    have h0 := hv .Ready
    have h1 := hv .Running
    have h2 := hv .Success
    have h3 := hv .Failure
    simp [statusCode] at h0 h1 h2 h3
    simp [tick, normalizeStatus, h0, h1, h2, h3]
  · intro v hv
    have h0 := hv .Ready
    have h1 := hv .Running
    have h2 := hv .Success
    have h3 := hv .Failure
    simp [statusCode] at h0 h1 h2 h3
    simp [tick, normalizeStatus, h0, h1, h2, h3]

/-- Claim C8 witness: the normalization theorem applied at concrete inputs:
a `Success`-returning callback passes through, and the unrecognized code 99
is normalized to `Failure`. -/
theorem leaf_callback_normalization_witness :
    tick 0 (.Action (some (statusCode .Success)) .Ready) =
      (.Action (some (statusCode .Success)) .Success, .Success)
    ∧ (tick 0 (.Action (some 99) .Ready)).2 = .Failure :=
  ⟨(leaf_callback_normalization 0 .Ready).2.2.1 .Success,
   (leaf_callback_normalization 0 .Ready).2.2.2.2.1 99
     (by intro s; cases s <;> decide)⟩

/-- Claim C9: `Invert.Tick` (`behaviortree.go` lines 741–765) swaps
`Success` and `Failure` and passes `Running` and `Ready` through, so
`Invert(Invert(child))` reports the child's own status for every child
result, while a single `Invert` agrees with the child exactly when the
child yields `Running` or `Ready`. -/
theorem invert_double_inversion (now : Int) (c : BNode) (st1 st2 : Status) :
    (tick now (.Invert (.child (.Invert (.child c) st1)) st2)).2 = (tick now c).2
    ∧ ((tick now (.Invert (.child c) st1)).2 = (tick now c).2 ↔
        ((tick now c).2 = .Running ∨ (tick now c).2 = .Ready)) := by
  rcases hts : tick now c with ⟨c', s⟩
  cases s <;> simp [tick, hts]

/-- Claim C10: `WhileFailure.Tick` (`behaviortree.go` lines 1202–1228) on a
child that returns `Ready` (the `default` switch branch) returns `Running`
and leaves the ticked child as is — unlike the `Failure` branch, which
resets the child — and with any non-nil child the only possible results are
`Running` and `Success`. -/
theorem whileFailure_ready_no_reset (now : Int) (c : BNode) (st : Status) :
    ((tick now c).2 = .Ready →
      tick now (.WhileFailure (.child c) st) =
        (.WhileFailure (.child (tick now c).1) .Running, .Running))
    ∧ ((tick now c).2 = .Failure →
      tick now (.WhileFailure (.child c) st) =
        (.WhileFailure (.child (reset (tick now c).1).1) .Running, .Running))
    ∧ ((tick now (.WhileFailure (.child c) st)).2 = .Running ∨
       (tick now (.WhileFailure (.child c) st)).2 = .Success) := by
  rcases hts : tick now c with ⟨c', s⟩
  cases s <;> simp [tick, hts]

/-- Claim C10 witness: the `WhileFailure` characterization applied to a
child whose tick yields `Ready` (a `Condition` whose `Check` returns the
`Ready` code 0) and to one whose tick yields `Failure` (an `Action` whose
`Run` returns the `Failure` code 3). -/
theorem whileFailure_ready_no_reset_witness :
    ((tick 0 (.Condition (some 0) .Ready)).2 = .Ready ∧
      tick 0 (.WhileFailure (.child (.Condition (some 0) .Ready)) .Ready) =
        (.WhileFailure (.child (tick 0 (.Condition (some 0) .Ready)).1) .Running, .Running))
    ∧ ((tick 0 (.Action (some 3) .Ready)).2 = .Failure ∧
      tick 0 (.WhileFailure (.child (.Action (some 3) .Ready)) .Ready) =
        (.WhileFailure (.child (reset (tick 0 (.Action (some 3) .Ready)).1).1) .Running,
         .Running)) :=
  ⟨⟨rfl, (whileFailure_ready_no_reset 0 (.Condition (some 0) .Ready) .Ready).1 rfl⟩,
   ⟨rfl, (whileFailure_ready_no_reset 0 (.Action (some 3) .Ready) .Ready).2.1 rfl⟩⟩

end Behave
